import Mathlib

/-!
Verification development for the Tarp Papel Maker poster tiling application.

The definitions below are a shallow embedding of the TypeScript sources:
`types.ts` (data model), `constants.ts` (paper catalog), `utils/pdfGenerator.ts`
(the `generateTiledPDF` export pipeline), `App.tsx` (`toggleUnit` and app state)
and `components/CanvasWorkspace.tsx` (layout derivation and the move/resize
interaction handlers).  JavaScript numbers are modelled as exact rationals.
-/

namespace Tarp

/-- Measurement unit, source enum `Unit` in types.ts (values 'mm' and 'in'). -/
inductive Unit' where
  | mm
  | inch
deriving DecidableEq, Inhabited

/-- Source enum `PaperOrientation` in types.ts. -/
inductive PaperOrientation where
  | portrait
  | landscape
deriving DecidableEq, Inhabited

/-- Source enum `SlicingMode` in types.ts. -/
inductive SlicingMode where
  | grid
  | size
deriving DecidableEq, Inhabited

/-- Cut line style, the `'solid' | 'dashed' | 'none'` union in `PosterConfig`. -/
inductive CutLineStyle where
  | solid
  | dashed
  | none
deriving DecidableEq, Inhabited

/-- Source interface `PaperSize` in types.ts (width/height in millimeters). -/
structure PaperSize where
  id : String
  name : String
  width : ℚ
  height : ℚ
  category : String
deriving DecidableEq, Inhabited

/-- Optional style record of a layer (types.ts `Layer.style`). -/
structure LayerStyle where
  color : Option String
  fontSize : Option ℚ
  fontFamily : Option String
  fontWeight : Option String
  backgroundColor : Option String
deriving DecidableEq, Inhabited

/-- Layer kind, the `'image' | 'text'` union in types.ts. -/
inductive LayerKind where
  | image
  | text
deriving DecidableEq, Inhabited

/-- Source interface `Layer` in types.ts.  Position and size are fractions of
the poster bounds; rotation in degrees; opacity in [0,1]. -/
structure Layer where
  id : String
  type : LayerKind
  content : String
  x : ℚ
  y : ℚ
  width : ℚ
  height : ℚ
  rotation : ℚ
  opacity : ℚ
  style : Option LayerStyle
deriving DecidableEq, Inhabited

/-- Source interface `PosterConfig` in types.ts.  All physical quantities are
in the active unit. -/
structure PosterConfig where
  mode : SlicingMode
  unit : Unit'
  targetWidth : ℚ
  targetHeight : ℚ
  gridRows : ℚ
  gridCols : ℚ
  paperId : String
  orientation : PaperOrientation
  margin : ℚ
  overlap : ℚ
  showCutLines : Bool
  cutLineStyle : CutLineStyle
  showPageNumbers : Bool
deriving DecidableEq, Inhabited

/-! Layout derivation.  These formulas appear identically in
`generateTiledPDF` (pdfGenerator.ts) and in `CanvasWorkspace.tsx`. -/

/-- Paper width converted to the active unit
(`isInch ? paperSize.width / 25.4 : paperSize.width`). -/
def paperW (cfg : PosterConfig) (paper : PaperSize) : ℚ :=
  if cfg.unit = Unit'.inch then paper.width / 25.4 else paper.width

/-- Paper height converted to the active unit. -/
def paperH (cfg : PosterConfig) (paper : PaperSize) : ℚ :=
  if cfg.unit = Unit'.inch then paper.height / 25.4 else paper.height

/-- Oriented page width (`pWidth = isPortrait ? paperWidth : paperHeight`). -/
def pWidth (cfg : PosterConfig) (paper : PaperSize) : ℚ :=
  if cfg.orientation = PaperOrientation.portrait then paperW cfg paper
  else paperH cfg paper

/-- Oriented page height. -/
def pHeight (cfg : PosterConfig) (paper : PaperSize) : ℚ :=
  if cfg.orientation = PaperOrientation.portrait then paperH cfg paper
  else paperW cfg paper

/-- Printable width (`printW = pWidth - (config.margin * 2)`). -/
def printW (cfg : PosterConfig) (paper : PaperSize) : ℚ :=
  pWidth cfg paper - cfg.margin * 2

/-- Printable height (`printH = pHeight - (config.margin * 2)`). -/
def printH (cfg : PosterConfig) (paper : PaperSize) : ℚ :=
  pHeight cfg paper - cfg.margin * 2

/-- Poster width: in grid mode the poster exactly fills the grid
(`posterWidth = config.gridCols * printW`), otherwise it is the target width. -/
def posterWidth (cfg : PosterConfig) (paper : PaperSize) : ℚ :=
  if cfg.mode = SlicingMode.grid then cfg.gridCols * printW cfg paper
  else cfg.targetWidth

/-- Poster height, analogous to `posterWidth`. -/
def posterHeight (cfg : PosterConfig) (paper : PaperSize) : ℚ :=
  if cfg.mode = SlicingMode.grid then cfg.gridRows * printH cfg paper
  else cfg.targetHeight

/-- Derived column count (`cols = Math.ceil(posterWidth / printW)`). -/
def cols (cfg : PosterConfig) (paper : PaperSize) : ℤ :=
  ⌈posterWidth cfg paper / printW cfg paper⌉

/-- Derived row count (`rows = Math.ceil(posterHeight / printH)`). -/
def rows (cfg : PosterConfig) (paper : PaperSize) : ℤ :=
  ⌈posterHeight cfg paper / printH cfg paper⌉

/-- Rasterization scale (`scale = isInch ? 120 : 5`). -/
def scale (cfg : PosterConfig) : ℚ :=
  if cfg.unit = Unit'.inch then 120 else 5

/-! Compositor.  The virtual canvas has pixel size
`Math.ceil(posterWidth * scale) x Math.ceil(posterHeight * scale)`; text layers
are drawn with `ctx.fillText` at top-aligned baseline. -/

/-- One `ctx.fillText(line, x, y)` call together with the font size in effect. -/
structure TextDraw where
  text : String
  x : ℚ
  y : ℚ
  size : ℚ
deriving DecidableEq, Inhabited

/-- Effective font-size multiplier, modelling the JavaScript expression
`layer.style?.fontSize || 1`: a missing style, a missing fontSize, and the
falsy value 0 all yield 1. -/
def fontMult (style : Option LayerStyle) : ℚ :=
  match style with
  | some s =>
    match s.fontSize with
    | some m => if m = 0 then 1 else m
    | Option.none => 1
  | Option.none => 1

/-- Splitting a character list at every line break, the semantics of the
JavaScript `content.split('\n')`: the result always has one more entry than
there are separators, so for example an empty string yields `[""]` and a
trailing line break yields a trailing empty line. -/
def splitLinesAux : List Char → List String
  | [] => [""]
  | c :: cs =>
    match splitLinesAux cs, decEq c '\n' with
    | rest, isTrue _ => "" :: rest
    | [], isFalse _ => [String.mk [c]]
    | h :: t, isFalse _ => String.mk (c :: h.data) :: t

/-- The line list of a text layer, `layer.content.split('\n')`. -/
def splitLines (s : String) : List String :=
  splitLinesAux s.data

/-- The fillText calls produced for one text layer on a canvas of pixel size
`canvasW x canvasH`: font size `canvasH * 0.05 * (style?.fontSize || 1)`,
content split on line breaks, line `i` drawn at `ly + i * fontSize * 1.2`. -/
def textDraws (canvasW canvasH : ℚ) (layer : Layer) : List TextDraw :=
  let lx := layer.x * canvasW
  let ly := layer.y * canvasH
  let fontSize := canvasH * 0.05 * fontMult layer.style
  (splitLines layer.content).enum.map fun p =>
    { text := p.2, x := lx, y := ly + p.1 * fontSize * 1.2, size := fontSize }

/-! Tiler.  One `Page` records the artifacts emitted for one grid cell. -/

/-- A straight line segment drawn with `doc.line(x1, y1, x2, y2)`. -/
structure Seg where
  x1 : ℚ
  y1 : ℚ
  x2 : ℚ
  y2 : ℚ
deriving DecidableEq, Inhabited

/-- Dash length for the rectangle outline (`isInch ? 0.1 : 2`). -/
def dashLen (cfg : PosterConfig) : ℚ :=
  if cfg.unit = Unit'.inch then 0.1 else 2

/-- Scissor mark length (`markLen = isInch ? 0.2 : 5`). -/
def markLen (cfg : PosterConfig) : ℚ :=
  if cfg.unit = Unit'.inch then 0.2 else 5

/-- Scissor mark offset (`markOffset = isInch ? 0.08 : 2`). -/
def markOffset (cfg : PosterConfig) : ℚ :=
  if cfg.unit = Unit'.inch then 0.08 else 2

/-- Inset of the page-number label from the page edges (`isInch ? 0.2 : 5`). -/
def labelInset (cfg : PosterConfig) : ℚ :=
  if cfg.unit = Unit'.inch then 0.2 else 5

/-- Text of the page-number label for grid cell `(r, c)`. -/
def pageLabelText (r c : ℕ) : String :=
  "Page " ++ toString (r + 1) ++ "-" ++ toString (c + 1) ++
    " (Row " ++ toString (r + 1) ++ ", Col " ++ toString (c + 1) ++ ")"

/-- Artifacts emitted for one page: the extracted source rectangle, the
`addImage` call (absent for degenerate tiles), the cut-line rectangle with its
dash pattern, the scissor mark segments, and the page-number label. -/
structure Page where
  row : ℕ
  col : ℕ
  srcX : ℚ
  srcY : ℚ
  srcW : ℚ
  srcH : ℚ
  destX : ℚ
  destY : ℚ
  img : Option (ℚ × ℚ × ℚ × ℚ)
  cutRect : Option (ℚ × ℚ × ℚ × ℚ)
  rectDash : List ℚ
  marks : List Seg
  pageLabel : Option String
  labelPos : Option (ℚ × ℚ)
deriving DecidableEq, Inhabited

/-- The body of the per-cell loop in `generateTiledPDF` for row `r`, column
`c`, translated clause for clause from pdfGenerator.ts. -/
def mkPage (cfg : PosterConfig) (paper : PaperSize) (r c : ℕ) : Page :=
  let prW := printW cfg paper
  let prH := printH cfg paper
  let srcX := (c : ℚ) * prW
  let srcY := (r : ℚ) * prH
  let srcW := min prW (posterWidth cfg paper - srcX)
  let srcH := min prH (posterHeight cfg paper - srcY)
  let destX := cfg.margin
  let destY := cfg.margin
  let sw := srcW * scale cfg
  let sh := srcH * scale cfg
  let cut := cfg.showCutLines = true ∧ cfg.cutLineStyle ≠ CutLineStyle.none
  { row := r
    col := c
    srcX := srcX
    srcY := srcY
    srcW := srcW
    srcH := srcH
    destX := destX
    destY := destY
    img := if 0 < sw ∧ 0 < sh then some (destX, destY, srcW, srcH) else Option.none
    cutRect := if cut then some (destX, destY, srcW, srcH) else Option.none
    rectDash :=
      if cut ∧ cfg.cutLineStyle = CutLineStyle.dashed then [dashLen cfg, dashLen cfg] else []
    marks :=
      if cut then
        [ { x1 := destX - markOffset cfg, y1 := destY, x2 := destX + markLen cfg, y2 := destY },
          { x1 := destX, y1 := destY - markOffset cfg, x2 := destX, y2 := destY + markLen cfg },
          { x1 := destX + srcW - markLen cfg, y1 := destY + srcH,
            x2 := destX + srcW + markOffset cfg, y2 := destY + srcH },
          { x1 := destX + srcW, y1 := destY + srcH - markLen cfg,
            x2 := destX + srcW, y2 := destY + srcH + markOffset cfg } ]
      else []
    pageLabel := if cfg.showPageNumbers then some (pageLabelText r c) else Option.none
    labelPos :=
      if cfg.showPageNumbers then some (labelInset cfg, pHeight cfg paper - labelInset cfg)
      else Option.none }

/-- The page list of the export: the double loop
`for r in 0..rows-1: for c in 0..cols-1` in row-major order. -/
def pagesList (cfg : PosterConfig) (paper : PaperSize) : List Page :=
  (List.range (rows cfg paper).toNat).flatMap fun r =>
    (List.range (cols cfg paper).toNat).map fun c => mkPage cfg paper r c

/-- The completed document handed to the PDF sink. -/
structure PDFDocument where
  isPortrait : Bool
  pageW : ℚ
  pageH : ℚ
  canvasW : ℤ
  canvasH : ℤ
  textOps : List TextDraw
  pages : List Page
  filename : String
deriving DecidableEq, Inhabited

/-- The success path of `generateTiledPDF`: rasterize the layers onto the
virtual canvas, then slice into pages and save under the fixed name. -/
def buildPDF (cfg : PosterConfig) (layers : List Layer) (paper : PaperSize) : PDFDocument :=
  let cw : ℤ := ⌈posterWidth cfg paper * scale cfg⌉
  let ch : ℤ := ⌈posterHeight cfg paper * scale cfg⌉
  { isPortrait := cfg.orientation = PaperOrientation.portrait
    pageW := pWidth cfg paper
    pageH := pHeight cfg paper
    canvasW := cw
    canvasH := ch
    textOps := layers.flatMap fun l =>
      if l.type = LayerKind.text then textDraws (cw : ℚ) (ch : ℚ) l else []
    pages := pagesList cfg paper
    filename := "docuslice-poster.pdf" }

/-- Entry point `generateTiledPDF(config, layers, paperSize)`: the margin check
runs before any canvas is created; on failure nothing is rasterized and no
page is emitted. -/
def generateTiledPDF (cfg : PosterConfig) (layers : List Layer) (paper : PaperSize) :
    Except String PDFDocument :=
  if printW cfg paper ≤ 0 ∨ printH cfg paper ≤ 0 then
    Except.error "Margins are too large for the selected paper size."
  else
    Except.ok (buildPDF cfg layers paper)

/-! Unit toggle, from App.tsx. -/

/-- Rounding to two decimal places, modelling
`parseFloat(x.toFixed(2))` on the exact rational value. -/
def round2 (q : ℚ) : ℚ :=
  (round (q * 100) : ℤ) / 100

/-- Millimeters to inches as `toggleUnit` computes it (factor `1/25.4`,
rounded to two decimals). -/
def mmToInch (v : ℚ) : ℚ :=
  round2 (v * (1 / 25.4))

/-- Inches to millimeters as `toggleUnit` computes it (factor `25.4`,
rounded to two decimals). -/
def inchToMm (v : ℚ) : ℚ :=
  round2 (v * 25.4)

/-- Round trip of one value through a mm -> inch -> mm toggle pair. -/
def roundTripMm (v : ℚ) : ℚ :=
  inchToMm (mmToInch v)

/-- The `toggleUnit` handler of App.tsx: flips the unit and converts the four
physical fields, each rounded to two decimals. -/
def toggleUnit (c : PosterConfig) : PosterConfig :=
  let newUnit := if c.unit = Unit'.mm then Unit'.inch else Unit'.mm
  let factor : ℚ := if newUnit = Unit'.inch then 1 / 25.4 else 25.4
  { c with
    unit := newUnit
    targetWidth := round2 (c.targetWidth * factor)
    targetHeight := round2 (c.targetHeight * factor)
    margin := round2 (c.margin * factor)
    overlap := round2 (c.overlap * factor) }

/-- The part of the App component state that `toggleUnit` can reach:
`toggleUnit` only calls `setConfig`, so the layer list is untouched. -/
structure AppState where
  config : PosterConfig
  layers : List Layer
deriving DecidableEq, Inhabited

/-- The unit-toggle action on the whole app state. -/
def appToggleUnit (st : AppState) : AppState :=
  { st with config := toggleUnit st.config }

/-! Interactive move/resize, from CanvasWorkspace.tsx. -/

/-- The four corner handles. -/
inductive HandleKind where
  | nw
  | ne
  | sw
  | se
deriving DecidableEq, Inhabited

/-- Gesture mode of the interaction state machine. -/
inductive InteractionMode where
  | none
  | moving
  | resizing
deriving DecidableEq, Inhabited

/-- The interaction state set by `handleMouseDown`: the gesture mode, the
active handle, the start pointer position, and a snapshot of the layer at
gesture start. -/
structure Interaction where
  mode : InteractionMode
  activeHandle : Option HandleKind
  startMouseX : ℚ
  startMouseY : ℚ
  startLayer : Option Layer
deriving DecidableEq, Inhabited

/-- The interaction state created by `handleMouseDown(e, layerId, handle)`. -/
def handleMouseDown (layer : Layer) (handle : Option HandleKind)
    (clientX clientY : ℚ) : Interaction :=
  { mode := if handle.isSome then InteractionMode.resizing else InteractionMode.moving
    activeHandle := handle
    startMouseX := clientX
    startMouseY := clientY
    startLayer := some layer }

/-- The resizing switch of `handleMouseMove`, returning the
`(newX, newY, newW, newH)` passed to `onLayerUpdate`.  `MIN_SIZE = 0.01`. -/
def resizeResult (s : Layer) (hk : HandleKind) (dXPct dYPct : ℚ) : ℚ × ℚ × ℚ × ℚ :=
  match hk with
  | HandleKind.se =>
      (s.x, s.y, max 0.01 (s.width + dXPct), max 0.01 (s.height + dYPct))
  | HandleKind.sw =>
      let proposedW := s.width - dXPct
      if proposedW < 0.01 then
        (s.x + s.width - 0.01, s.y, 0.01, max 0.01 (s.height + dYPct))
      else
        (s.x + dXPct, s.y, proposedW, max 0.01 (s.height + dYPct))
  | HandleKind.ne =>
      let proposedH := s.height - dYPct
      if proposedH < 0.01 then
        (s.x, s.y + s.height - 0.01, max 0.01 (s.width + dXPct), 0.01)
      else
        (s.x, s.y + dYPct, max 0.01 (s.width + dXPct), proposedH)
  | HandleKind.nw =>
      let proposedW := s.width - dXPct
      let proposedH := s.height - dYPct
      let wx : ℚ × ℚ :=
        if proposedW < 0.01 then (0.01, s.x + s.width - 0.01) else (proposedW, s.x + dXPct)
      let hy : ℚ × ℚ :=
        if proposedH < 0.01 then (0.01, s.y + s.height - 0.01) else (proposedH, s.y + dYPct)
      (wx.2, hy.2, wx.1, hy.1)

/-- The `handleMouseMove` handler applied to the currently selected layer
`cur`: deltas are divided by the zoom factor, converted to fractions of the
surface's logical size `(visualW, visualH)`, and the new geometry is computed
from the gesture-start snapshot, never from `cur`'s own position. -/
def handleMouseMove (inter : Interaction) (zoom visualW visualH : ℚ)
    (clientX clientY : ℚ) (cur : Layer) : Layer :=
  match inter.startLayer with
  | Option.none => cur
  | some s =>
    let deltaXPct := ((clientX - inter.startMouseX) / zoom) / visualW
    let deltaYPct := ((clientY - inter.startMouseY) / zoom) / visualH
    match inter.mode with
    | InteractionMode.moving =>
        { cur with x := s.x + deltaXPct, y := s.y + deltaYPct }
    | InteractionMode.resizing =>
        match inter.activeHandle with
        | some hk =>
            let r := resizeResult s hk deltaXPct deltaYPct
            { cur with x := r.1, y := r.2.1, width := r.2.2.1, height := r.2.2.2 }
        | Option.none => cur
    | InteractionMode.none => cur

/-- The corner opposite to a handle, in fractional poster coordinates: the
corner a resize gesture must leave fixed. -/
def fixedCorner (hk : HandleKind) (l : Layer) : ℚ × ℚ :=
  match hk with
  | HandleKind.se => (l.x, l.y)
  | HandleKind.sw => (l.x + l.width, l.y)
  | HandleKind.ne => (l.x, l.y + l.height)
  | HandleKind.nw => (l.x + l.width, l.y + l.height)

/-- The width a resize drag proposes before clamping, per handle. -/
def proposedW (hk : HandleKind) (w dXPct : ℚ) : ℚ :=
  match hk with
  | HandleKind.se => w + dXPct
  | HandleKind.ne => w + dXPct
  | HandleKind.sw => w - dXPct
  | HandleKind.nw => w - dXPct

/-- The height a resize drag proposes before clamping, per handle. -/
def proposedH (hk : HandleKind) (h dYPct : ℚ) : ℚ :=
  match hk with
  | HandleKind.se => h + dYPct
  | HandleKind.sw => h + dYPct
  | HandleKind.ne => h - dYPct
  | HandleKind.nw => h - dYPct

/-- Membership of a point on an axis-aligned segment. -/
def pointOnSeg (p : ℚ × ℚ) (s : Seg) : Prop :=
  (s.x1 = s.x2 ∧ p.1 = s.x1 ∧ min s.y1 s.y2 ≤ p.2 ∧ p.2 ≤ max s.y1 s.y2) ∨
  (s.y1 = s.y2 ∧ p.2 = s.y1 ∧ min s.x1 s.x2 ≤ p.1 ∧ p.1 ≤ max s.x1 s.x2)

instance (p : ℚ × ℚ) (s : Seg) : Decidable (pointOnSeg p s) := by
  unfold pointOnSeg
  infer_instance

/-- A point lying strictly outside an axis-aligned rectangle given as
`(x, y, w, h)`. -/
def outsideRect (p : ℚ × ℚ) (x y w h : ℚ) : Prop :=
  p.1 < x ∨ p.2 < y ∨ x + w < p.1 ∨ y + h < p.2

instance (p : ℚ × ℚ) (x y w h : ℚ) : Decidable (outsideRect p x y w h) := by
  unfold outsideRect
  infer_instance

/-! Concrete instances used to exercise the theorems: catalog entries from
constants.ts, the default config of App.tsx, and small variations. -/

/-- Catalog entry `{ id: 'letter', width: 215.9, height: 279.4 }`. -/
def letterPaper : PaperSize :=
  { id := "letter", name := "Letter", width := 215.9, height := 279.4, category := "ANSI" }

/-- Catalog entry `{ id: 'a4', width: 210, height: 297 }`. -/
def a4Paper : PaperSize :=
  { id := "a4", name := "A4", width := 210, height := 297, category := "ISO" }

/-- The initial config of App.tsx: grid mode, inches, 3 x 3 grid on letter
paper, portrait, margin 0.5in. -/
def demoGridCfg : PosterConfig :=
  { mode := SlicingMode.grid, unit := Unit'.inch, targetWidth := 36, targetHeight := 48
    gridRows := 3, gridCols := 3, paperId := "letter"
    orientation := PaperOrientation.portrait, margin := 0.5, overlap := 0.25
    showCutLines := true, cutLineStyle := CutLineStyle.dashed, showPageNumbers := true }

/-- The default config switched to size mode (36in x 48in poster). -/
def demoSizeCfg : PosterConfig :=
  { demoGridCfg with mode := SlicingMode.size }

/-- A config whose margin exceeds half the paper size. -/
def badMarginCfg : PosterConfig :=
  { mode := SlicingMode.size, unit := Unit'.mm, targetWidth := 500, targetHeight := 500
    gridRows := 3, gridCols := 3, paperId := "a4"
    orientation := PaperOrientation.portrait, margin := 200, overlap := 0
    showCutLines := true, cutLineStyle := CutLineStyle.dashed, showPageNumbers := true }

/-- A size-mode config in millimeters on A4 with a partial last column and a
partial (single) row: printable area 200 x 287, poster 250 x 250. -/
def partialCfg : PosterConfig :=
  { mode := SlicingMode.size, unit := Unit'.mm, targetWidth := 250, targetHeight := 250
    gridRows := 3, gridCols := 3, paperId := "a4"
    orientation := PaperOrientation.portrait, margin := 5, overlap := 0
    showCutLines := true, cutLineStyle := CutLineStyle.dashed, showPageNumbers := false }

/-- The second page (row 0, column 1) emitted for `partialCfg`. -/
def partialPage : Page :=
  mkPage partialCfg a4Paper 0 1

/-- The default image layer created by `handleAddLayer('image', ...)`. -/
def demoImgLayer : Layer :=
  { id := "img1", type := LayerKind.image, content := "img-data", x := 0.25, y := 0.25
    width := 0.5, height := 0.5, rotation := 0, opacity := 1, style := Option.none }

/-- A two-line text layer with font-size multiplier 1, the default text style
of `handleAddLayer('text', ...)`. -/
def demoTextLayer : Layer :=
  { id := "txt1", type := LayerKind.text, content := "Hello\nWorld", x := 0.25, y := 0.25
    width := 0.5, height := 0.2, rotation := 0, opacity := 1
    style := some { color := some "#000000", fontSize := some 1, fontFamily := some "Inter"
                    fontWeight := some "bold", backgroundColor := Option.none } }

/-- A text layer whose style carries the falsy font-size multiplier 0. -/
def zeroFontLayer : Layer :=
  { demoTextLayer with
    content := "A"
    style := some { color := some "#000000", fontSize := some 0, fontFamily := some "Inter"
                    fontWeight := some "bold", backgroundColor := Option.none } }

/-- A move gesture started on `demoImgLayer` at pointer (10, 10). -/
def demoMoveInter : Interaction :=
  handleMouseDown demoImgLayer Option.none 10 10

/-- A resize gesture on the south-west handle of `demoImgLayer`, started at
pointer (0, 0). -/
def demoResizeInter : Interaction :=
  handleMouseDown demoImgLayer (some HandleKind.sw) 0 0

/-- A config in millimeters whose target width is 1mm, exercising the unit
round trip. -/
def oneMmCfg : PosterConfig :=
  { badMarginCfg with targetWidth := 1 }

/-! Helper lemmas about the page grid. -/

/-- Length of a row-major double loop. -/
theorem flatMap_grid_length {α : Type} (f : ℕ → ℕ → α) (m n : ℕ) :
    ((List.range m).flatMap fun r => (List.range n).map (f r)).length = m * n := by
  induction m with
  | zero => simp
  | succ k ih =>
    rw [List.range_succ]
    simp [List.flatMap_append, ih, Nat.succ_mul]

/-- Indexing a row-major double loop at `r * n + c`. -/
theorem flatMap_grid_getElem? {α : Type} (f : ℕ → ℕ → α) (m n r c : ℕ)
    (hr : r < m) (hc : c < n) :
    ((List.range m).flatMap fun i => (List.range n).map (f i))[r * n + c]? = some (f r c) := by
  induction m with
  | zero => omega
  | succ k ih =>
    rw [List.range_succ, List.flatMap_append]
    rcases Nat.lt_or_ge r k with h | h
    · have hlen : r * n + c < ((List.range k).flatMap fun i => (List.range n).map (f i)).length := by
        rw [flatMap_grid_length]
        calc r * n + c < r * n + n := by omega
          _ = (r + 1) * n := by ring
          _ ≤ k * n := Nat.mul_le_mul_right n (by omega)
      rw [List.getElem?_append, if_pos hlen]
      exact ih h
    · have hrk : r = k := by omega
      subst hrk
      rw [List.getElem?_append_right (by rw [flatMap_grid_length]; omega)]
      rw [flatMap_grid_length]
      simp only [Nat.add_sub_cancel_left, List.flatMap_cons, List.flatMap_nil, List.append_nil]
      rw [List.getElem?_map, List.getElem?_range hc]
      rfl

/-- Membership in the emitted page list. -/
theorem mem_pagesList {cfg : PosterConfig} {paper : PaperSize} {p : Page} :
    p ∈ pagesList cfg paper ↔
      ∃ r < (rows cfg paper).toNat, ∃ c < (cols cfg paper).toNat,
        p = mkPage cfg paper r c := by
  simp only [pagesList, List.mem_flatMap, List.mem_map, List.mem_range]
  constructor
  · rintro ⟨r, hr, c, hc, rfl⟩
    exact ⟨r, hr, c, hc, rfl⟩
  · rintro ⟨r, hr, c, hc, rfl⟩
    exact ⟨r, hr, c, hc, rfl⟩

/-- The extracted source rectangle of an emitted page. -/
theorem mkPage_src (cfg : PosterConfig) (paper : PaperSize) (r c : ℕ) :
    (mkPage cfg paper r c).srcW =
      min (printW cfg paper) (posterWidth cfg paper - c * printW cfg paper) ∧
    (mkPage cfg paper r c).srcH =
      min (printH cfg paper) (posterHeight cfg paper - r * printH cfg paper) := by
  constructor <;> rfl

/-- A cell index below the derived count leaves positive extracted extent. -/
theorem src_extent_pos {total print : ℚ} (c : ℕ) (hc : (c : ℤ) < ⌈total / print⌉)
    (hp : 0 < print) : 0 < min print (total - c * print) := by
  have h2 : (c : ℚ) ≤ (⌈total / print⌉ : ℚ) - 1 := by
    have : (c : ℤ) ≤ ⌈total / print⌉ - 1 := by omega
    exact_mod_cast this
  have h3 : ((⌈total / print⌉ : ℚ)) - 1 < total / print := by
    have := Int.ceil_lt_add_one (total / print)
    linarith
  have h4 : (c : ℚ) * print < total := by
    have hlt : (c : ℚ) < total / print := lt_of_le_of_lt h2 h3
    calc (c : ℚ) * print < total / print * print := by
          exact mul_lt_mul_of_pos_right hlt hp
      _ = total := div_mul_cancel₀ _ hp.ne'
  exact lt_min hp (by linarith)

/-- Constructor disequality, packaged for simp. -/
theorem mm_ne_inch_eq : (Unit'.mm = Unit'.inch) = False :=
  eq_false (by decide)

/-- Printable width of the default config: 8.5in minus two 0.5in margins. -/
theorem demo_printW : printW demoGridCfg letterPaper = 15 / 2 := by
  norm_num [printW, pWidth, paperW, paperH, demoGridCfg, letterPaper]

/-- Printable height of the default config: 11in minus two 0.5in margins. -/
theorem demo_printH : printH demoGridCfg letterPaper = 10 := by
  norm_num [printH, pHeight, paperW, paperH, demoGridCfg, letterPaper]

/-- Poster width of the default 3 x 3 grid config. -/
theorem demo_posterW : posterWidth demoGridCfg letterPaper = 45 / 2 := by
  rw [show posterWidth demoGridCfg letterPaper =
    demoGridCfg.gridCols * printW demoGridCfg letterPaper from by
      simp [posterWidth, demoGridCfg]]
  rw [demo_printW]
  norm_num [demoGridCfg]

/-- Poster height of the default 3 x 3 grid config. -/
theorem demo_posterH : posterHeight demoGridCfg letterPaper = 30 := by
  rw [show posterHeight demoGridCfg letterPaper =
    demoGridCfg.gridRows * printH demoGridCfg letterPaper from by
      simp [posterHeight, demoGridCfg]]
  rw [demo_printH]
  norm_num [demoGridCfg]

/-- Derived column count of the default config. -/
theorem demo_cols : cols demoGridCfg letterPaper = 3 := by
  unfold cols
  rw [demo_posterW, demo_printW, Int.ceil_eq_iff]
  norm_num

/-- Derived row count of the default config. -/
theorem demo_rows : rows demoGridCfg letterPaper = 3 := by
  unfold rows
  rw [demo_posterH, demo_printH, Int.ceil_eq_iff]
  norm_num

/-- Constructor disequality, packaged for simp. -/
theorem size_ne_grid_eq : (SlicingMode.size = SlicingMode.grid) = False :=
  eq_false (by decide)

/-- Constructor disequality, packaged for simp. -/
theorem dashed_ne_none_eq : (CutLineStyle.dashed = CutLineStyle.none) = False :=
  eq_false (by decide)

/-- C10: toggling the measurement unit changes exactly the unit field and the
four physical fields targetWidth, targetHeight, margin and overlap, each
multiplied by 25.4 or 1/25.4 and rounded to 2 decimal places; every other
configuration field and the entire layer list are unchanged. -/
theorem toggle_unit_frame (st : AppState) :
    (appToggleUnit st).layers = st.layers ∧
    (appToggleUnit st).config.mode = st.config.mode ∧
    (appToggleUnit st).config.gridRows = st.config.gridRows ∧
    (appToggleUnit st).config.gridCols = st.config.gridCols ∧
    (appToggleUnit st).config.paperId = st.config.paperId ∧
    (appToggleUnit st).config.orientation = st.config.orientation ∧
    (appToggleUnit st).config.showCutLines = st.config.showCutLines ∧
    (appToggleUnit st).config.cutLineStyle = st.config.cutLineStyle ∧
    (appToggleUnit st).config.showPageNumbers = st.config.showPageNumbers ∧
    (appToggleUnit st).config.unit =
      (if st.config.unit = Unit'.mm then Unit'.inch else Unit'.mm) ∧
    (appToggleUnit st).config.targetWidth =
      round2 (st.config.targetWidth *
        (if st.config.unit = Unit'.mm then 1 / 25.4 else 25.4)) ∧
    (appToggleUnit st).config.targetHeight =
      round2 (st.config.targetHeight *
        (if st.config.unit = Unit'.mm then 1 / 25.4 else 25.4)) ∧
    (appToggleUnit st).config.margin =
      round2 (st.config.margin *
        (if st.config.unit = Unit'.mm then 1 / 25.4 else 25.4)) ∧
    (appToggleUnit st).config.overlap =
      round2 (st.config.overlap *
        (if st.config.unit = Unit'.mm then 1 / 25.4 else 25.4)) := by
  cases hu : st.config.unit <;>
    simp [appToggleUnit, toggleUnit, hu]

/-- C3: the export fails with the margin error exactly when an oriented
printable dimension is non-positive, and in that case no document (hence no
canvas and no page) is produced; when both printable dimensions are positive
the export succeeds and this error is never raised. -/
theorem margin_error_fail_fast (cfg : PosterConfig) (layers : List Layer) (paper : PaperSize) :
    (generateTiledPDF cfg layers paper =
        Except.error "Margins are too large for the selected paper size." ↔
      printW cfg paper ≤ 0 ∨ printH cfg paper ≤ 0) ∧
    (0 < printW cfg paper → 0 < printH cfg paper →
      generateTiledPDF cfg layers paper = Except.ok (buildPDF cfg layers paper)) := by
  unfold generateTiledPDF
  constructor
  · split_ifs with h
    · simp [h]
    · simp [h]
  · intro h1 h2
    rw [if_neg]
    push_neg
    exact ⟨by linarith, by linarith⟩

/-- Witness for C3: a 200mm margin on A4 fails with the margin error, while
the default letter-paper config has positive printable area and succeeds. -/
theorem margin_error_fail_fast_witness :
    generateTiledPDF badMarginCfg [] a4Paper =
        Except.error "Margins are too large for the selected paper size." ∧
    0 < printW demoGridCfg letterPaper ∧ 0 < printH demoGridCfg letterPaper ∧
    generateTiledPDF demoGridCfg [] letterPaper =
      Except.ok (buildPDF demoGridCfg [] letterPaper) := by
  have hbad : printW badMarginCfg a4Paper ≤ 0 := by
    simp only [printW, pWidth, paperW, paperH, badMarginCfg, a4Paper]
    rw [if_pos trivial, if_neg (by decide)]
    norm_num
  have hw : 0 < printW demoGridCfg letterPaper := by
    norm_num [printW, pWidth, paperW, paperH, demoGridCfg, letterPaper]
  have hh : 0 < printH demoGridCfg letterPaper := by
    norm_num [printH, pHeight, paperW, paperH, demoGridCfg, letterPaper]
  exact ⟨(margin_error_fail_fast badMarginCfg [] a4Paper).1.mpr (Or.inl hbad),
    hw, hh, (margin_error_fail_fast demoGridCfg [] letterPaper).2 hw hh⟩

/-- C5: in a move gesture the updated position is recomputed from the
gesture-start snapshot alone — newX is startLayer.x plus the pointer delta
divided by zoom and by the surface's logical width — so replaying a move
event or dropping intermediate move events cannot change the final layer. -/
theorem move_recompute_idempotent (inter : Interaction) (zoom vw vh ex ey : ℚ)
    (cur s : Layer) (hm : inter.mode = InteractionMode.moving)
    (hs : inter.startLayer = some s) :
    (handleMouseMove inter zoom vw vh ex ey cur).x =
        s.x + ((ex - inter.startMouseX) / zoom) / vw ∧
    (handleMouseMove inter zoom vw vh ex ey cur).y =
        s.y + ((ey - inter.startMouseY) / zoom) / vh ∧
    (∀ px py : ℚ,
      handleMouseMove inter zoom vw vh ex ey (handleMouseMove inter zoom vw vh px py cur) =
        handleMouseMove inter zoom vw vh ex ey cur) ∧
    ∀ es : List (ℚ × ℚ),
      List.foldl (fun l e => handleMouseMove inter zoom vw vh e.1 e.2 l) cur (es ++ [(ex, ey)]) =
        handleMouseMove inter zoom vw vh ex ey cur := by
  have hstep : ∀ (px py : ℚ) (l : Layer),
      handleMouseMove inter zoom vw vh px py l =
        { l with
          x := s.x + ((px - inter.startMouseX) / zoom) / vw
          y := s.y + ((py - inter.startMouseY) / zoom) / vh } := by
    intro px py l
    simp [handleMouseMove, hs, hm]
  have hpair : ∀ (px py : ℚ) (l : Layer),
      handleMouseMove inter zoom vw vh ex ey (handleMouseMove inter zoom vw vh px py l) =
        handleMouseMove inter zoom vw vh ex ey l := by
    intro px py l
    rw [hstep, hstep, hstep]
  refine ⟨by rw [hstep], by rw [hstep], fun px py => hpair px py cur, ?_⟩
  intro es
  induction es generalizing cur with
  | nil => simp
  | cons e es ih =>
    rw [List.cons_append, List.foldl_cons, ih]
    exact hpair e.1 e.2 cur

/-- Witness for C5: a concrete move gesture at zoom 1 on a 100 x 100 logical
surface moves the default layer from x = 0.25 to x = 0.45, and replaying an
intermediate event does not change the outcome. -/
theorem move_recompute_idempotent_witness :
    (handleMouseMove demoMoveInter 1 100 100 30 10 demoImgLayer).x = 0.45 ∧
    List.foldl (fun l e => handleMouseMove demoMoveInter 1 100 100 e.1 e.2 l)
        demoImgLayer [(20, 10), (20, 10), (30, 10)] =
      handleMouseMove demoMoveInter 1 100 100 30 10 demoImgLayer := by
  have h := move_recompute_idempotent demoMoveInter 1 100 100 30 10
    demoImgLayer demoImgLayer rfl rfl
  refine ⟨?_, ?_⟩
  · rw [h.1]
    show (0.25 : ℚ) + ((30 - 10) / 1) / 100 = 0.45
    norm_num
  · exact h.2.2.2 [(20, 10), (20, 10)]

/-- C4: for any corner handle and any pointer delta, a dimension the drag
would push below the 1% floor is clamped to exactly 0.01 and the position is
recomputed so that the opposite (fixed) corner keeps the fractional
coordinates it had at gesture start; the resulting width and height are never
below 0.01. -/
theorem resize_clamp_fixed_corner (inter : Interaction) (zoom vw vh ex ey : ℚ)
    (cur s : Layer) (hk : HandleKind) (hm : inter.mode = InteractionMode.resizing)
    (hs : inter.startLayer = some s) (hh : inter.activeHandle = some hk) :
    0.01 ≤ (handleMouseMove inter zoom vw vh ex ey cur).width ∧
    0.01 ≤ (handleMouseMove inter zoom vw vh ex ey cur).height ∧
    fixedCorner hk (handleMouseMove inter zoom vw vh ex ey cur) = fixedCorner hk s ∧
    (proposedW hk s.width (((ex - inter.startMouseX) / zoom) / vw) < 0.01 →
      (handleMouseMove inter zoom vw vh ex ey cur).width = 0.01) ∧
    (proposedH hk s.height (((ey - inter.startMouseY) / zoom) / vh) < 0.01 →
      (handleMouseMove inter zoom vw vh ex ey cur).height = 0.01) := by
  have hres : handleMouseMove inter zoom vw vh ex ey cur =
      { cur with
        x := (resizeResult s hk (((ex - inter.startMouseX) / zoom) / vw)
          (((ey - inter.startMouseY) / zoom) / vh)).1
        y := (resizeResult s hk (((ex - inter.startMouseX) / zoom) / vw)
          (((ey - inter.startMouseY) / zoom) / vh)).2.1
        width := (resizeResult s hk (((ex - inter.startMouseX) / zoom) / vw)
          (((ey - inter.startMouseY) / zoom) / vh)).2.2.1
        height := (resizeResult s hk (((ex - inter.startMouseX) / zoom) / vw)
          (((ey - inter.startMouseY) / zoom) / vh)).2.2.2 } := by
    simp [handleMouseMove, hs, hm, hh]
  rw [hres]
  clear hres
  set dx := ((ex - inter.startMouseX) / zoom) / vw
  set dy := ((ey - inter.startMouseY) / zoom) / vh
  cases hk with
  | se =>
    simp only [resizeResult, fixedCorner, proposedW, proposedH]
    exact ⟨le_max_left _ _, le_max_left _ _, by trivial,
      fun h => max_eq_left h.le, fun h => max_eq_left h.le⟩
  | sw =>
    simp only [resizeResult, fixedCorner, proposedW, proposedH]
    split_ifs with h1
    · refine ⟨le_refl _, le_max_left _ _, ?_, fun _ => rfl, fun h => max_eq_left h.le⟩
      rw [Prod.mk.injEq]
      exact ⟨by ring, rfl⟩
    · refine ⟨by linarith, le_max_left _ _, ?_, fun h => absurd h h1,
        fun h => max_eq_left h.le⟩
      rw [Prod.mk.injEq]
      exact ⟨by ring, rfl⟩
  | ne =>
    simp only [resizeResult, fixedCorner, proposedW, proposedH]
    split_ifs with h1
    · refine ⟨le_max_left _ _, le_refl _, ?_, fun h => max_eq_left h.le, fun _ => rfl⟩
      rw [Prod.mk.injEq]
      exact ⟨rfl, by ring⟩
    · refine ⟨le_max_left _ _, by linarith, ?_, fun h => max_eq_left h.le,
        fun h => absurd h h1⟩
      rw [Prod.mk.injEq]
      exact ⟨rfl, by ring⟩
  | nw =>
    simp only [resizeResult, fixedCorner, proposedW, proposedH]
    split_ifs with h1 h2 h2
    · refine ⟨le_refl _, le_refl _, ?_, fun _ => rfl, fun _ => rfl⟩
      rw [Prod.mk.injEq]
      exact ⟨by ring, by ring⟩
    · refine ⟨le_refl _, by linarith, ?_, fun _ => rfl, fun h => absurd h h2⟩
      rw [Prod.mk.injEq]
      exact ⟨by ring, by ring⟩
    · refine ⟨by linarith, le_refl _, ?_, fun h => absurd h h1, fun _ => rfl⟩
      rw [Prod.mk.injEq]
      exact ⟨by ring, by ring⟩
    · refine ⟨by linarith, by linarith, ?_, fun h => absurd h h1, fun h => absurd h h2⟩
      rw [Prod.mk.injEq]
      exact ⟨by ring, by ring⟩

/-- Witness for C4: dragging the south-west handle far right (pointer delta
60 logical px on a 100px surface, so 0.6 in fractional units against a width
of 0.5) clamps the width to exactly 0.01, keeps both floors, and leaves the
north-east corner at (0.75, 0.25). -/
theorem resize_clamp_fixed_corner_witness :
    proposedW HandleKind.sw demoImgLayer.width (((60 - 0) / 1) / 100) < 0.01 ∧
    0.01 ≤ (handleMouseMove demoResizeInter 1 100 100 60 0 demoImgLayer).width ∧
    (handleMouseMove demoResizeInter 1 100 100 60 0 demoImgLayer).width = 0.01 ∧
    fixedCorner HandleKind.sw (handleMouseMove demoResizeInter 1 100 100 60 0 demoImgLayer) =
      fixedCorner HandleKind.sw demoImgLayer := by
  have hprop : proposedW HandleKind.sw demoImgLayer.width (((60 - 0) / 1) / 100) < 0.01 := by
    show (0.5 : ℚ) - ((60 - 0) / 1) / 100 < 0.01
    norm_num
  have h := resize_clamp_fixed_corner demoResizeInter 1 100 100 60 0
    demoImgLayer demoImgLayer HandleKind.sw rfl rfl rfl
  exact ⟨hprop, h.1, h.2.2.2.1 hprop, h.2.2.1⟩

/-- Rounding to two decimals moves a value by at most 1/200. -/
theorem round2_err (q : ℚ) : |round2 q - q| ≤ 1 / 200 := by
  have h := abs_sub_round (q * 100)
  rw [abs_sub_comm] at h
  have key : round2 q - q = ((round (q * 100) : ℚ) - q * 100) / 100 := by
    unfold round2
    ring
  rw [key, abs_div, abs_of_pos (show (0 : ℚ) < 100 by norm_num)]
  linarith

/-- The mm -> inch -> mm round trip moves a value by at most 0.132: the first
rounding error of up to 0.005 inch is scaled by 25.4 and the second rounding
adds up to 0.005 mm. -/
theorem roundTripMm_err (v : ℚ) : |roundTripMm v - v| ≤ 132 / 1000 := by
  have h1 : |mmToInch v - v * (1 / 25.4)| ≤ 1 / 200 := round2_err _
  have h2 : |inchToMm (mmToInch v) - mmToInch v * 25.4| ≤ 1 / 200 := round2_err _
  have key : roundTripMm v - v =
      (inchToMm (mmToInch v) - mmToInch v * 25.4) +
        25.4 * (mmToInch v - v * (1 / 25.4)) := by
    unfold roundTripMm
    ring
  calc |roundTripMm v - v|
      = |(inchToMm (mmToInch v) - mmToInch v * 25.4) +
          25.4 * (mmToInch v - v * (1 / 25.4))| := by rw [key]
    _ ≤ |inchToMm (mmToInch v) - mmToInch v * 25.4| +
          |25.4 * (mmToInch v - v * (1 / 25.4))| := abs_add _ _
    _ = |inchToMm (mmToInch v) - mmToInch v * 25.4| +
          25.4 * |mmToInch v - v * (1 / 25.4)| := by
        rw [abs_mul, abs_of_pos (show (0 : ℚ) < 25.4 by norm_num)]
    _ ≤ 1 / 200 + 25.4 * (1 / 200) := by
        have := mul_le_mul_of_nonneg_left h1 (show (0 : ℚ) ≤ 25.4 by norm_num)
        linarith
    _ ≤ 132 / 1000 := by norm_num

/-- Two successive unit toggles starting from millimeters send targetWidth
through the mm -> inch -> mm round trip. -/
theorem toggleUnit_twice_targetWidth (c : PosterConfig) (hc : c.unit = Unit'.mm) :
    (toggleUnit (toggleUnit c)).targetWidth = roundTripMm c.targetWidth := by
  have hne : ¬ (Unit'.inch = Unit'.mm) := by decide
  have h1 : toggleUnit c =
      { c with
        unit := Unit'.inch
        targetWidth := round2 (c.targetWidth * (1 / 25.4))
        targetHeight := round2 (c.targetHeight * (1 / 25.4))
        margin := round2 (c.margin * (1 / 25.4))
        overlap := round2 (c.overlap * (1 / 25.4)) } := by
    simp [toggleUnit, hc]
  rw [h1]
  simp [toggleUnit, hne, roundTripMm, inchToMm, mmToInch]

/-- Counterexample to C6: converting 1mm through one toggle pair yields
1.02mm, which is 0.02 away from the original — more than the claimed 0.01
tolerance. -/
theorem unit_round_trip_cex :
    (toggleUnit (toggleUnit oneMmCfg)).targetWidth = 51 / 50 ∧
    roundTripMm 1 = 51 / 50 ∧
    ¬ |roundTripMm 1 - 1| ≤ 1 / 100 := by
  have hfl1 : round ((1 : ℚ) * (1 / 25.4) * 100) = 4 := by
    rw [round_eq]
    have he : (1 : ℚ) * (1 / 25.4) * 100 + 1 / 2 = 1127 / 254 := by norm_num
    rw [he, Int.floor_eq_iff]
    norm_num
  have h1 : mmToInch 1 = 1 / 25 := by
    unfold mmToInch round2
    rw [hfl1]
    norm_num
  have hfl2 : round ((1 / 25 : ℚ) * 25.4 * 100) = 102 := by
    rw [round_eq]
    have he : (1 / 25 : ℚ) * 25.4 * 100 + 1 / 2 = 1021 / 10 := by norm_num
    rw [he, Int.floor_eq_iff]
    norm_num
  have h2 : roundTripMm 1 = 51 / 50 := by
    unfold roundTripMm
    rw [h1]
    unfold inchToMm round2
    rw [hfl2]
    norm_num
  have htgl : (toggleUnit (toggleUnit oneMmCfg)).targetWidth = roundTripMm 1 :=
    toggleUnit_twice_targetWidth oneMmCfg rfl
  refine ⟨htgl.trans h2, h2, ?_⟩
  rw [h2, show (51 / 50 : ℚ) - 1 = 1 / 50 by norm_num,
    abs_of_pos (show (0 : ℚ) < 1 / 50 by norm_num)]
  norm_num

/-- C6 amended: the mm -> inch -> mm unit-toggle round trip (each step
multiplying by the exact factor and rounding to 2 decimals) returns a value
within 0.132 of the original — not within 0.01 as claimed, since the first
rounding error is amplified by the factor 25.4. -/
theorem unit_round_trip_bound (c : PosterConfig) (hc : c.unit = Unit'.mm)
    (hv : 0 < c.targetWidth) :
    (toggleUnit (toggleUnit c)).targetWidth = roundTripMm c.targetWidth ∧
    |(toggleUnit (toggleUnit c)).targetWidth - c.targetWidth| ≤ 132 / 1000 := by
  refine ⟨toggleUnit_twice_targetWidth c hc, ?_⟩
  rw [toggleUnit_twice_targetWidth c hc]
  exact roundTripMm_err c.targetWidth

/-- Witness for the amended C6 at the concrete 1mm config. -/
theorem unit_round_trip_bound_witness :
    oneMmCfg.unit = Unit'.mm ∧ 0 < oneMmCfg.targetWidth ∧
    |(toggleUnit (toggleUnit oneMmCfg)).targetWidth - oneMmCfg.targetWidth| ≤ 132 / 1000 := by
  have hv : 0 < oneMmCfg.targetWidth := by
    show (0 : ℚ) < 1
    norm_num
  exact ⟨rfl, hv, (unit_round_trip_bound oneMmCfg rfl hv).2⟩

/-- C1: in grid mode with integer grid counts at least 1 and positive
printable dimensions, the poster exactly fills the grid, the derived page
counts equal the grid inputs, and every emitted tile extracts the full
printable rectangle — no partial tiles. -/
theorem grid_mode_exact_tiling (cfg : PosterConfig) (layers : List Layer)
    (paper : PaperSize) (n m : ℕ) (hmode : cfg.mode = SlicingMode.grid)
    (hcols : cfg.gridCols = (n : ℚ)) (hrows : cfg.gridRows = (m : ℚ))
    (hn : 1 ≤ n) (hm1 : 1 ≤ m)
    (hw : 0 < printW cfg paper) (hh : 0 < printH cfg paper) :
    posterWidth cfg paper = cfg.gridCols * printW cfg paper ∧
    posterHeight cfg paper = cfg.gridRows * printH cfg paper ∧
    cols cfg paper = (n : ℤ) ∧ rows cfg paper = (m : ℤ) ∧
    ∀ p ∈ (buildPDF cfg layers paper).pages,
      p.srcW = printW cfg paper ∧ p.srcH = printH cfg paper := by
  have hpw : posterWidth cfg paper = cfg.gridCols * printW cfg paper := by
    simp [posterWidth, hmode]
  have hph : posterHeight cfg paper = cfg.gridRows * printH cfg paper := by
    simp [posterHeight, hmode]
  have hcols' : cols cfg paper = (n : ℤ) := by
    unfold cols
    rw [hpw, hcols, mul_div_cancel_right₀ _ hw.ne']
    exact Int.ceil_natCast n
  have hrows' : rows cfg paper = (m : ℤ) := by
    unfold rows
    rw [hph, hrows, mul_div_cancel_right₀ _ hh.ne']
    exact Int.ceil_natCast m
  refine ⟨hpw, hph, hcols', hrows', ?_⟩
  intro p hp
  have hp' : p ∈ pagesList cfg paper := hp
  obtain ⟨r, hr, c, hc, rfl⟩ := mem_pagesList.mp hp'
  rw [hrows', Int.toNat_natCast] at hr
  rw [hcols', Int.toNat_natCast] at hc
  obtain ⟨hsw, hsh⟩ := mkPage_src cfg paper r c
  constructor
  · rw [hsw, hpw, hcols]
    have hc1 : (c : ℚ) + 1 ≤ (n : ℚ) := by exact_mod_cast hc
    apply min_eq_left
    nlinarith
  · rw [hsh, hph, hrows]
    have hr1 : (r : ℚ) + 1 ≤ (m : ℚ) := by exact_mod_cast hr
    apply min_eq_left
    nlinarith

/-- Witness for C1: the default 3 x 3 letter-paper grid config has printable
area 7.5in x 10in; the derived counts are 3 and 3 and the first page's tile is
the full printable rectangle. -/
theorem grid_mode_exact_tiling_witness :
    demoGridCfg.mode = SlicingMode.grid ∧
    demoGridCfg.gridCols = ((3 : ℕ) : ℚ) ∧
    0 < printW demoGridCfg letterPaper ∧ 0 < printH demoGridCfg letterPaper ∧
    posterWidth demoGridCfg letterPaper = demoGridCfg.gridCols * printW demoGridCfg letterPaper ∧
    cols demoGridCfg letterPaper = ((3 : ℕ) : ℤ) ∧
    rows demoGridCfg letterPaper = ((3 : ℕ) : ℤ) := by
  have hw : 0 < printW demoGridCfg letterPaper := by
    norm_num [printW, pWidth, paperW, paperH, demoGridCfg, letterPaper]
  have hh : 0 < printH demoGridCfg letterPaper := by
    norm_num [printH, pHeight, paperW, paperH, demoGridCfg, letterPaper]
  have h := grid_mode_exact_tiling demoGridCfg [] letterPaper 3 3 rfl
    (by norm_num [demoGridCfg]) (by norm_num [demoGridCfg])
    (by norm_num) (by norm_num) hw hh
  exact ⟨rfl, by norm_num [demoGridCfg], hw, hh, h.1, h.2.2.1, h.2.2.2.1⟩

/-- C2: in size mode the page counts are the ceilings of target over
printable, the last column's extracted width is the positive remainder
`targetWidth - (cols-1)*printableWidth` (at most one printable width), and the
tile image placed on such a page keeps exactly that partial width — it is
never padded or upscaled to fill the page. -/
theorem size_mode_partial_last_column (cfg : PosterConfig) (layers : List Layer)
    (paper : PaperSize) (hmode : cfg.mode = SlicingMode.size)
    (htw : 0 < cfg.targetWidth) (hth : 0 < cfg.targetHeight)
    (hw : 0 < printW cfg paper) (hh : 0 < printH cfg paper) :
    cols cfg paper = ⌈cfg.targetWidth / printW cfg paper⌉ ∧
    rows cfg paper = ⌈cfg.targetHeight / printH cfg paper⌉ ∧
    0 < cfg.targetWidth - ((cols cfg paper : ℚ) - 1) * printW cfg paper ∧
    cfg.targetWidth - ((cols cfg paper : ℚ) - 1) * printW cfg paper ≤ printW cfg paper ∧
    ∀ p ∈ (buildPDF cfg layers paper).pages,
      p.col = (cols cfg paper).toNat - 1 →
        p.srcW = cfg.targetWidth - ((cols cfg paper : ℚ) - 1) * printW cfg paper ∧
        p.img = some (cfg.margin, cfg.margin, p.srcW, p.srcH) := by
  have hneq : ¬ (SlicingMode.size = SlicingMode.grid) := by decide
  have hpw : posterWidth cfg paper = cfg.targetWidth := by
    simp [posterWidth, hmode, hneq]
  have hph : posterHeight cfg paper = cfg.targetHeight := by
    simp [posterHeight, hmode, hneq]
  have hcols : cols cfg paper = ⌈cfg.targetWidth / printW cfg paper⌉ := by
    unfold cols
    rw [hpw]
  have hrows : rows cfg paper = ⌈cfg.targetHeight / printH cfg paper⌉ := by
    unfold rows
    rw [hph]
  have hcpos : 1 ≤ cols cfg paper := by
    rw [hcols]
    exact Int.ceil_pos.mpr (div_pos htw hw)
  have hlastPos : 0 < cfg.targetWidth - ((cols cfg paper : ℚ) - 1) * printW cfg paper := by
    have hceil := Int.ceil_lt_add_one (cfg.targetWidth / printW cfg paper)
    have h1 : ((cols cfg paper : ℚ)) - 1 < cfg.targetWidth / printW cfg paper := by
      rw [hcols]
      push_cast
      linarith
    have h2 : ((cols cfg paper : ℚ) - 1) * printW cfg paper < cfg.targetWidth := by
      calc ((cols cfg paper : ℚ) - 1) * printW cfg paper
          < cfg.targetWidth / printW cfg paper * printW cfg paper :=
            mul_lt_mul_of_pos_right h1 hw
        _ = cfg.targetWidth := div_mul_cancel₀ _ hw.ne'
    linarith
  have hlastLe : cfg.targetWidth - ((cols cfg paper : ℚ) - 1) * printW cfg paper ≤
      printW cfg paper := by
    have h1 : cfg.targetWidth / printW cfg paper ≤ (cols cfg paper : ℚ) := by
      rw [hcols]
      exact_mod_cast Int.le_ceil _
    have h2 : cfg.targetWidth ≤ (cols cfg paper : ℚ) * printW cfg paper :=
      (div_le_iff hw).mp h1
    nlinarith
  refine ⟨hcols, hrows, hlastPos, hlastLe, ?_⟩
  intro p hp hcol
  have hp' : p ∈ pagesList cfg paper := hp
  obtain ⟨r, hr, c, hc, rfl⟩ := mem_pagesList.mp hp'
  have hcol' : c = (cols cfg paper).toNat - 1 := hcol
  have hcz : (c : ℤ) = cols cfg paper - 1 := by omega
  have hcq : (c : ℚ) = (cols cfg paper : ℚ) - 1 := by exact_mod_cast hcz
  obtain ⟨hsw, hsh⟩ := mkPage_src cfg paper r c
  have hsrcW : (mkPage cfg paper r c).srcW =
      cfg.targetWidth - ((cols cfg paper : ℚ) - 1) * printW cfg paper := by
    rw [hsw, hpw, hcq]
    exact min_eq_right (by linarith)
  have hsrcHpos : 0 < (mkPage cfg paper r c).srcH := by
    rw [hsh, hph]
    refine src_extent_pos r ?_ hh
    have : (r : ℤ) < rows cfg paper := by omega
    rw [hrows] at this
    exact this
  have hscale : 0 < scale cfg := by
    unfold scale
    split_ifs <;> norm_num
  refine ⟨hsrcW, ?_⟩
  show (if 0 < (mkPage cfg paper r c).srcW * scale cfg ∧
      0 < (mkPage cfg paper r c).srcH * scale cfg then
    some (cfg.margin, cfg.margin, (mkPage cfg paper r c).srcW, (mkPage cfg paper r c).srcH)
    else Option.none) = some (cfg.margin, cfg.margin, (mkPage cfg paper r c).srcW,
      (mkPage cfg paper r c).srcH)
  rw [if_pos]
  constructor
  · apply mul_pos _ hscale
    rw [hsrcW]
    exact hlastPos
  · exact mul_pos hsrcHpos hscale

/-- Witness for C2: size mode 36in x 48in on letter paper with 0.5in margin
gives cols = ceil(36/7.5) = 5 and a last-column tile width of 6in. -/
theorem size_mode_partial_last_column_witness :
    demoSizeCfg.mode = SlicingMode.size ∧
    0 < printW demoSizeCfg letterPaper ∧
    cols demoSizeCfg letterPaper = ⌈demoSizeCfg.targetWidth / printW demoSizeCfg letterPaper⌉ ∧
    0 < demoSizeCfg.targetWidth -
        ((cols demoSizeCfg letterPaper : ℚ) - 1) * printW demoSizeCfg letterPaper ∧
    demoSizeCfg.targetWidth -
        ((cols demoSizeCfg letterPaper : ℚ) - 1) * printW demoSizeCfg letterPaper ≤
      printW demoSizeCfg letterPaper := by
  have hw : 0 < printW demoSizeCfg letterPaper := by
    norm_num [printW, pWidth, paperW, paperH, demoSizeCfg, demoGridCfg, letterPaper]
  have hh : 0 < printH demoSizeCfg letterPaper := by
    norm_num [printH, pHeight, paperW, paperH, demoSizeCfg, demoGridCfg, letterPaper]
  have htw : 0 < demoSizeCfg.targetWidth := by
    norm_num [demoSizeCfg, demoGridCfg]
  have hth : 0 < demoSizeCfg.targetHeight := by
    norm_num [demoSizeCfg, demoGridCfg]
  have h := size_mode_partial_last_column demoSizeCfg [] letterPaper rfl htw hth hw hh
  exact ⟨rfl, hw, h.1, h.2.2.1, h.2.2.2.1⟩

/-- C7: the export emits exactly rows * cols pages in row-major order — the
page at flat index r*cols + c is the page of grid cell (r, c) — each labelled
"Page r+1-c+1 (Row r+1, Col c+1)" when page numbers are enabled, and the
document is saved under the fixed filename docuslice-poster.pdf. -/
theorem pages_row_major (cfg : PosterConfig) (layers : List Layer) (paper : PaperSize)
    (hw : 0 < printW cfg paper) (hh : 0 < printH cfg paper)
    (hpw : 0 < posterWidth cfg paper) (hph : 0 < posterHeight cfg paper) :
    (buildPDF cfg layers paper).filename = "docuslice-poster.pdf" ∧
    (buildPDF cfg layers paper).pages.length =
      (rows cfg paper).toNat * (cols cfg paper).toNat ∧
    ∀ r c : ℕ, r < (rows cfg paper).toNat → c < (cols cfg paper).toNat →
      ∃ p : Page,
        (buildPDF cfg layers paper).pages[r * (cols cfg paper).toNat + c]? = some p ∧
        p.row = r ∧ p.col = c ∧
        (cfg.showPageNumbers = true →
          p.pageLabel = some ("Page " ++ toString (r + 1) ++ "-" ++ toString (c + 1) ++
            " (Row " ++ toString (r + 1) ++ ", Col " ++ toString (c + 1) ++ ")")) := by
  refine ⟨rfl, ?_, ?_⟩
  · show (pagesList cfg paper).length = _
    exact flatMap_grid_length (mkPage cfg paper) _ _
  · intro r c hr hc
    refine ⟨mkPage cfg paper r c, ?_, rfl, rfl, ?_⟩
    · show (pagesList cfg paper)[r * (cols cfg paper).toNat + c]? = _
      exact flatMap_grid_getElem? (mkPage cfg paper) _ _ r c hr hc
    · intro hsp
      simp [mkPage, hsp]
      rfl

/-- Witness for C7: the default 3 x 3 grid export emits 9 pages; the page at
flat index 4 is the one of row 1, column 1 and is labelled
"Page 2-2 (Row 2, Col 2)"; the filename is fixed. -/
theorem pages_row_major_witness :
    0 < printW demoGridCfg letterPaper ∧ 0 < posterWidth demoGridCfg letterPaper ∧
    (buildPDF demoGridCfg [] letterPaper).filename = "docuslice-poster.pdf" ∧
    (buildPDF demoGridCfg [] letterPaper).pages.length = 9 ∧
    ∃ p : Page, (buildPDF demoGridCfg [] letterPaper).pages[4]? = some p ∧
      p.row = 1 ∧ p.col = 1 ∧ p.pageLabel = some "Page 2-2 (Row 2, Col 2)" := by
  have hw : 0 < printW demoGridCfg letterPaper := by
    rw [demo_printW]
    norm_num
  have hh : 0 < printH demoGridCfg letterPaper := by
    rw [demo_printH]
    norm_num
  have hpw : 0 < posterWidth demoGridCfg letterPaper := by
    rw [demo_posterW]
    norm_num
  have hph : 0 < posterHeight demoGridCfg letterPaper := by
    rw [demo_posterH]
    norm_num
  obtain ⟨hfn, hlen, hidx⟩ := pages_row_major demoGridCfg [] letterPaper hw hh hpw hph
  have hrb : (1 : ℕ) < (rows demoGridCfg letterPaper).toNat := by
    rw [demo_rows]
    decide
  have hcb : (1 : ℕ) < (cols demoGridCfg letterPaper).toNat := by
    rw [demo_cols]
    decide
  obtain ⟨p, hp, hprow, hpcol, hplab⟩ := hidx 1 1 hrb hcb
  have hix : 1 * (cols demoGridCfg letterPaper).toNat + 1 = 4 := by
    rw [demo_cols]
    decide
  have hlab : p.pageLabel = some "Page 2-2 (Row 2, Col 2)" := hplab rfl
  refine ⟨hw, hpw, hfn, ?_, p, ?_, hprow, hpcol, hlab⟩
  · rw [hlen, demo_rows, demo_cols]
    decide
  · rw [hix] at hp
    exact hp

/-- C8 amended: a text layer is drawn at font size
`0.05 * surfaceHeight * multiplier`, where the multiplier defaults to 1 when
the style or its fontSize is absent — and also when the stored multiplier is
the falsy value 0; the content is split on line breaks with no word-wrap and
line i is drawn top-aligned at vertical offset `i * 1.2 * fontSize`. -/
theorem text_layer_draws (W H : ℚ) (l : Layer) :
    (textDraws W H l).length = (splitLines l.content).length ∧
    (∀ i : ℕ, (textDraws W H l)[i]? = (splitLines l.content)[i]?.map fun line =>
      { text := line, x := l.x * W
        y := l.y * H + (i : ℚ) * (H * 0.05 * fontMult l.style) * 1.2
        size := H * 0.05 * fontMult l.style : TextDraw }) ∧
    (∀ st m, l.style = some st → st.fontSize = some m → m ≠ 0 → fontMult l.style = m) ∧
    (l.style = Option.none → fontMult l.style = 1) ∧
    (∀ st, l.style = some st → st.fontSize = Option.none → fontMult l.style = 1) ∧
    (∀ st, l.style = some st → st.fontSize = some 0 → fontMult l.style = 1) := by
  refine ⟨?_, ?_, ?_, ?_, ?_, ?_⟩
  · simp [textDraws]
  · intro i
    simp only [textDraws]
    rw [List.getElem?_map, List.getElem?_enum]
    cases (splitLines l.content)[i]? <;> simp
  · intro st m h1 h2 hm
    simp [fontMult, h1, h2, hm]
  · intro h
    simp [fontMult, h]
  · intro st h1 h2
    simp [fontMult, h1, h2]
  · intro st h1 h2
    simp [fontMult, h1, h2]

/-- Counterexample to C8 as stated: a text layer whose style stores the
multiplier 0 is drawn at font size 50 on a 1000px-high surface (the falsy 0
falls back to 1), not at `0.05 * 1000 * 0 = 0` as the stated formula
requires. -/
theorem text_font_size_cex :
    (textDraws 1000 1000 zeroFontLayer).map TextDraw.size = [50] ∧
    (1000 : ℚ) * 0.05 * 0 = 0 ∧
    (50 : ℚ) ≠ 0 := by
  have hsplit : splitLines zeroFontLayer.content = ["A"] := rfl
  refine ⟨?_, by norm_num, by norm_num⟩
  simp only [textDraws, hsplit]
  norm_num [fontMult, zeroFontLayer, demoTextLayer, List.enum]

/-- Witness for the amended C8: the default two-line text layer on a
1000 x 1000 surface renders at font size 50, the first line at y = 250 and
the second 60px below it. -/
theorem text_layer_draws_witness :
    (textDraws 1000 1000 demoTextLayer)[0]? =
      some { text := "Hello", x := 250, y := 250, size := 50 } ∧
    (textDraws 1000 1000 demoTextLayer)[1]? =
      some { text := "World", x := 250, y := 250 + 60, size := 50 } := by
  have h := text_layer_draws 1000 1000 demoTextLayer
  have hsplit : splitLines demoTextLayer.content = ["Hello", "World"] := rfl
  constructor
  · have h0 := h.2.1 0
    rw [hsplit] at h0
    rw [h0]
    norm_num [fontMult, demoTextLayer]
  · have h1 := h.2.1 1
    rw [hsplit] at h1
    rw [h1]
    norm_num [fontMult, demoTextLayer]

/-- C9 amended: with cut lines enabled and a style other than none, every
emitted page draws a rectangle outline around the extracted tile area (equal
to the printable area on full tiles) — dashed with the unit-scaled dash
pattern or solid as requested — plus four short solid mark segments: two
passing through the tile rectangle's top-left corner and two through its
bottom-right corner, each extending beyond the rectangle by the unit-scaled
mark offset. -/
theorem cut_line_artifacts (cfg : PosterConfig) (layers : List Layer) (paper : PaperSize)
    (hw : 0 < printW cfg paper) (hh : 0 < printH cfg paper)
    (hpw : 0 < posterWidth cfg paper) (hph : 0 < posterHeight cfg paper)
    (hcut : cfg.showCutLines = true) (hstyle : cfg.cutLineStyle ≠ CutLineStyle.none) :
    ∀ p ∈ (buildPDF cfg layers paper).pages,
      p.cutRect = some (cfg.margin, cfg.margin, p.srcW, p.srcH) ∧
      (cfg.cutLineStyle = CutLineStyle.dashed → p.rectDash = [dashLen cfg, dashLen cfg]) ∧
      (cfg.cutLineStyle = CutLineStyle.solid → p.rectDash = []) ∧
      p.marks.length = 4 ∧
      (∀ s ∈ p.marks, pointOnSeg (cfg.margin, cfg.margin) s ∨
        pointOnSeg (cfg.margin + p.srcW, cfg.margin + p.srcH) s) ∧
      (∃ s ∈ p.marks, pointOnSeg (cfg.margin, cfg.margin) s) ∧
      (∃ s ∈ p.marks, pointOnSeg (cfg.margin + p.srcW, cfg.margin + p.srcH) s) ∧
      (∀ s ∈ p.marks, outsideRect (s.x1, s.y1) cfg.margin cfg.margin p.srcW p.srcH ∨
        outsideRect (s.x2, s.y2) cfg.margin cfg.margin p.srcW p.srcH) := by
  have hlen : 0 < markLen cfg := by
    unfold markLen
    split_ifs <;> norm_num
  have hoff : 0 < markOffset cfg := by
    unfold markOffset
    split_ifs <;> norm_num
  intro p hp
  have hp' : p ∈ pagesList cfg paper := hp
  obtain ⟨r, hr, c, hc, rfl⟩ := mem_pagesList.mp hp'
  have hcond : cfg.showCutLines = true ∧ cfg.cutLineStyle ≠ CutLineStyle.none :=
    ⟨hcut, hstyle⟩
  have hmarks : (mkPage cfg paper r c).marks =
      [ { x1 := cfg.margin - markOffset cfg, y1 := cfg.margin,
          x2 := cfg.margin + markLen cfg, y2 := cfg.margin },
        { x1 := cfg.margin, y1 := cfg.margin - markOffset cfg,
          x2 := cfg.margin, y2 := cfg.margin + markLen cfg },
        { x1 := cfg.margin + (mkPage cfg paper r c).srcW - markLen cfg,
          y1 := cfg.margin + (mkPage cfg paper r c).srcH,
          x2 := cfg.margin + (mkPage cfg paper r c).srcW + markOffset cfg,
          y2 := cfg.margin + (mkPage cfg paper r c).srcH },
        { x1 := cfg.margin + (mkPage cfg paper r c).srcW,
          y1 := cfg.margin + (mkPage cfg paper r c).srcH - markLen cfg,
          x2 := cfg.margin + (mkPage cfg paper r c).srcW,
          y2 := cfg.margin + (mkPage cfg paper r c).srcH + markOffset cfg } ] := by
    simp only [mkPage]
    rw [if_pos hcond]
  have hcr : (mkPage cfg paper r c).cutRect =
      some (cfg.margin, cfg.margin, (mkPage cfg paper r c).srcW,
        (mkPage cfg paper r c).srcH) := by
    simp only [mkPage]
    rw [if_pos hcond]
  have htl1 : pointOnSeg (cfg.margin, cfg.margin)
      { x1 := cfg.margin - markOffset cfg, y1 := cfg.margin,
        x2 := cfg.margin + markLen cfg, y2 := cfg.margin } := by
    right
    dsimp only
    refine ⟨rfl, rfl, ?_, ?_⟩
    · exact min_le_of_left_le (by linarith)
    · exact le_max_of_le_right (by linarith)
  have htl2 : pointOnSeg (cfg.margin, cfg.margin)
      { x1 := cfg.margin, y1 := cfg.margin - markOffset cfg,
        x2 := cfg.margin, y2 := cfg.margin + markLen cfg } := by
    left
    dsimp only
    refine ⟨rfl, rfl, ?_, ?_⟩
    · exact min_le_of_left_le (by linarith)
    · exact le_max_of_le_right (by linarith)
  have hbr1 : pointOnSeg
      (cfg.margin + (mkPage cfg paper r c).srcW, cfg.margin + (mkPage cfg paper r c).srcH)
      { x1 := cfg.margin + (mkPage cfg paper r c).srcW - markLen cfg,
        y1 := cfg.margin + (mkPage cfg paper r c).srcH,
        x2 := cfg.margin + (mkPage cfg paper r c).srcW + markOffset cfg,
        y2 := cfg.margin + (mkPage cfg paper r c).srcH } := by
    right
    dsimp only
    refine ⟨rfl, rfl, ?_, ?_⟩
    · exact min_le_of_left_le (by linarith)
    · exact le_max_of_le_right (by linarith)
  have hbr2 : pointOnSeg
      (cfg.margin + (mkPage cfg paper r c).srcW, cfg.margin + (mkPage cfg paper r c).srcH)
      { x1 := cfg.margin + (mkPage cfg paper r c).srcW,
        y1 := cfg.margin + (mkPage cfg paper r c).srcH - markLen cfg,
        x2 := cfg.margin + (mkPage cfg paper r c).srcW,
        y2 := cfg.margin + (mkPage cfg paper r c).srcH + markOffset cfg } := by
    left
    dsimp only
    refine ⟨rfl, rfl, ?_, ?_⟩
    · exact min_le_of_left_le (by linarith)
    · exact le_max_of_le_right (by linarith)
  refine ⟨hcr, ?_, ?_, ?_, ?_, ?_, ?_, ?_⟩
  · intro hdash
    simp only [mkPage]
    rw [if_pos ⟨hcond, hdash⟩]
  · intro hsolid
    simp only [mkPage]
    rw [if_neg]
    rintro ⟨-, hd⟩
    rw [hsolid] at hd
    exact absurd hd (by decide)
  · rw [hmarks]
    rfl
  · intro s hs
    rw [hmarks] at hs
    simp only [List.mem_cons, List.not_mem_nil, or_false] at hs
    rcases hs with rfl | rfl | rfl | rfl
    · exact Or.inl htl1
    · exact Or.inl htl2
    · exact Or.inr hbr1
    · exact Or.inr hbr2
  · refine ⟨_, ?_, htl1⟩
    rw [hmarks]
    simp
  · refine ⟨_, ?_, hbr2⟩
    rw [hmarks]
    simp
  · intro s hs
    rw [hmarks] at hs
    simp only [List.mem_cons, List.not_mem_nil, or_false] at hs
    rcases hs with rfl | rfl | rfl | rfl
    · exact Or.inl (Or.inl (by dsimp only; linarith))
    · exact Or.inl (Or.inr (Or.inl (by dsimp only; linarith)))
    · exact Or.inr (Or.inr (Or.inr (Or.inl (by dsimp only; linarith))))
    · exact Or.inr (Or.inr (Or.inr (Or.inr (by dsimp only; linarith))))

/-- Counterexample to C9 as stated: on the partial-tile page (row 0, col 1)
of a 250mm x 250mm size-mode poster on A4 with 5mm margin, the drawn cut
rectangle is the 50 x 250 tile area, not the 200 x 287 printable area, and no
scissor mark touches the printable rectangle's top-right corner (205, 5) —
marks exist only at the tile's top-left and bottom-right corners. -/
theorem scissor_marks_cex :
    partialPage ∈ (buildPDF partialCfg [] a4Paper).pages ∧
    partialPage.cutRect ≠
      some (partialCfg.margin, partialCfg.margin,
        printW partialCfg a4Paper, printH partialCfg a4Paper) ∧
    ¬ ∃ s ∈ partialPage.marks,
        pointOnSeg (partialCfg.margin + printW partialCfg a4Paper, partialCfg.margin) s := by
  have hprintW : printW partialCfg a4Paper = 200 := by
    norm_num [printW, pWidth, paperW, paperH, partialCfg, a4Paper, mm_ne_inch_eq]
  have hprintH : printH partialCfg a4Paper = 287 := by
    norm_num [printH, pHeight, paperW, paperH, partialCfg, a4Paper, mm_ne_inch_eq]
  have hposterW : posterWidth partialCfg a4Paper = 250 := by
    norm_num [posterWidth, partialCfg, size_ne_grid_eq]
  have hposterH : posterHeight partialCfg a4Paper = 250 := by
    norm_num [posterHeight, partialCfg, size_ne_grid_eq]
  have hcols2 : cols partialCfg a4Paper = 2 := by
    unfold cols
    rw [hposterW, hprintW, Int.ceil_eq_iff]
    norm_num
  have hrows1 : rows partialCfg a4Paper = 1 := by
    unfold rows
    rw [hposterH, hprintH, Int.ceil_eq_iff]
    norm_num
  have hmem : partialPage ∈ (buildPDF partialCfg [] a4Paper).pages := by
    show partialPage ∈ pagesList partialCfg a4Paper
    refine mem_pagesList.mpr ⟨0, ?_, 1, ?_, rfl⟩
    · rw [hrows1]
      decide
    · rw [hcols2]
      decide
  have hsrcW : partialPage.srcW = 50 := by
    show (mkPage partialCfg a4Paper 0 1).srcW = 50
    rw [(mkPage_src partialCfg a4Paper 0 1).1, hprintW, hposterW]
    rw [min_eq_right (by norm_num)]
    norm_num
  have hsrcH : partialPage.srcH = 250 := by
    show (mkPage partialCfg a4Paper 0 1).srcH = 250
    rw [(mkPage_src partialCfg a4Paper 0 1).2, hprintH, hposterH]
    rw [min_eq_right (by norm_num)]
    norm_num
  have hmargin : partialCfg.margin = 5 := rfl
  have hcond : partialCfg.showCutLines = true ∧
      partialCfg.cutLineStyle ≠ CutLineStyle.none := ⟨rfl, by decide⟩
  have hcr : partialPage.cutRect = some (5, 5, 50, 250) := by
    show (mkPage partialCfg a4Paper 0 1).cutRect = some (5, 5, 50, 250)
    have : (mkPage partialCfg a4Paper 0 1).cutRect =
        some (partialCfg.margin, partialCfg.margin,
          (mkPage partialCfg a4Paper 0 1).srcW, (mkPage partialCfg a4Paper 0 1).srcH) := by
      simp only [mkPage]
      rw [if_pos hcond]
    rw [this, hmargin]
    rw [show (mkPage partialCfg a4Paper 0 1).srcW = 50 from hsrcW,
      show (mkPage partialCfg a4Paper 0 1).srcH = 250 from hsrcH]
  have hmk : partialPage.marks =
      [ { x1 := 3, y1 := 5, x2 := 10, y2 := 5 },
        { x1 := 5, y1 := 3, x2 := 5, y2 := 10 },
        { x1 := 50, y1 := 255, x2 := 57, y2 := 255 },
        { x1 := 55, y1 := 250, x2 := 55, y2 := 257 } ] := by
    show (mkPage partialCfg a4Paper 0 1).marks = _
    have hexp : (mkPage partialCfg a4Paper 0 1).marks =
        [ { x1 := partialCfg.margin - markOffset partialCfg, y1 := partialCfg.margin,
            x2 := partialCfg.margin + markLen partialCfg, y2 := partialCfg.margin },
          { x1 := partialCfg.margin, y1 := partialCfg.margin - markOffset partialCfg,
            x2 := partialCfg.margin, y2 := partialCfg.margin + markLen partialCfg },
          { x1 := partialCfg.margin + (mkPage partialCfg a4Paper 0 1).srcW -
              markLen partialCfg,
            y1 := partialCfg.margin + (mkPage partialCfg a4Paper 0 1).srcH,
            x2 := partialCfg.margin + (mkPage partialCfg a4Paper 0 1).srcW +
              markOffset partialCfg,
            y2 := partialCfg.margin + (mkPage partialCfg a4Paper 0 1).srcH },
          { x1 := partialCfg.margin + (mkPage partialCfg a4Paper 0 1).srcW,
            y1 := partialCfg.margin + (mkPage partialCfg a4Paper 0 1).srcH -
              markLen partialCfg,
            x2 := partialCfg.margin + (mkPage partialCfg a4Paper 0 1).srcW,
            y2 := partialCfg.margin + (mkPage partialCfg a4Paper 0 1).srcH +
              markOffset partialCfg } ] := by
      simp only [mkPage]
      rw [if_pos hcond]
    rw [hexp,
      show (mkPage partialCfg a4Paper 0 1).srcW = 50 from hsrcW,
      show (mkPage partialCfg a4Paper 0 1).srcH = 250 from hsrcH]
    have hml : markLen partialCfg = 5 := rfl
    have hmo : markOffset partialCfg = 2 := rfl
    rw [hml, hmo, hmargin]
    norm_num
  refine ⟨hmem, ?_, ?_⟩
  · rw [hcr, hmargin, hprintW, hprintH]
    intro hcontra
    have := Option.some.injEq _ _ ▸ hcontra
    simp only [Option.some.injEq, Prod.mk.injEq] at hcontra
    norm_num at hcontra
  · rw [hmargin, hprintW, hmk]
    rintro ⟨s, hs, hos⟩
    simp only [List.mem_cons, List.not_mem_nil, or_false] at hs
    rcases hs with rfl | rfl | rfl | rfl <;>
      (unfold pointOnSeg at hos
       dsimp only at hos
       rcases hos with ⟨h1, h2, h3, h4⟩ | ⟨h1, h2, h3, h4⟩ <;> norm_num at h1 h2 h3 h4)

/-- Witness for the amended C9: on the default grid config the first page's
cut rectangle wraps the full printable tile, carries the dashed pattern, and
has exactly four scissor-mark segments. -/
theorem cut_line_artifacts_witness :
    0 < printW demoGridCfg letterPaper ∧
    demoGridCfg.showCutLines = true ∧
    demoGridCfg.cutLineStyle ≠ CutLineStyle.none ∧
    mkPage demoGridCfg letterPaper 0 0 ∈ (buildPDF demoGridCfg [] letterPaper).pages ∧
    (mkPage demoGridCfg letterPaper 0 0).cutRect =
      some (demoGridCfg.margin, demoGridCfg.margin,
        (mkPage demoGridCfg letterPaper 0 0).srcW,
        (mkPage demoGridCfg letterPaper 0 0).srcH) ∧
    (mkPage demoGridCfg letterPaper 0 0).rectDash =
      [dashLen demoGridCfg, dashLen demoGridCfg] ∧
    (mkPage demoGridCfg letterPaper 0 0).marks.length = 4 := by
  have hw : 0 < printW demoGridCfg letterPaper := by
    rw [demo_printW]
    norm_num
  have hh : 0 < printH demoGridCfg letterPaper := by
    rw [demo_printH]
    norm_num
  have hpw : 0 < posterWidth demoGridCfg letterPaper := by
    rw [demo_posterW]
    norm_num
  have hph : 0 < posterHeight demoGridCfg letterPaper := by
    rw [demo_posterH]
    norm_num
  have hmem : mkPage demoGridCfg letterPaper 0 0 ∈
      (buildPDF demoGridCfg [] letterPaper).pages := by
    show mkPage demoGridCfg letterPaper 0 0 ∈ pagesList demoGridCfg letterPaper
    refine mem_pagesList.mpr ⟨0, ?_, 0, ?_, rfl⟩
    · rw [demo_rows]
      decide
    · rw [demo_cols]
      decide
  have h := cut_line_artifacts demoGridCfg [] letterPaper hw hh hpw hph rfl (by decide)
    (mkPage demoGridCfg letterPaper 0 0) hmem
  exact ⟨hw, rfl, by decide, hmem, h.1, h.2.1 rfl, h.2.2.2.1⟩

end Tarp
